import Mathlib

/-!
Verification development for the membership-dues estimator.

The definitions below are a shallow embedding of the core of `src/index.ts`:
the catalog (`items`, `discounts`), the `Cart` class, the enrollment resolver
`getCarts`, and the benefit resolver `getBenefits`.  The surrounding DOM/UI
glue is out of scope.  JavaScript numbers are modelled by exact rationals
(`ℚ`); all arithmetic appearing in the core is on small catalog constants.
JavaScript's `Array.prototype.sort` is required by the language standard to be
stable, and a stable sort by a fixed comparator has a unique result, so it is
embedded as an insertion sort that is proved below to produce exactly the
stable partition (absolute-strategy discounts first, insertion order kept
inside each strategy group).
-/

namespace Dues

inductive DiscountType
  | family | student | reciprocal | winterOnly
deriving DecidableEq, Repr

inductive DiscountStrategy
  | absolute | percentage
deriving DecidableEq, Repr

inductive ItemType
  | membership | firstLeague | secondLeague | thirdLeague
  | additionalLeague | basicIce | basicIceReduced | social
deriving DecidableEq, Repr

structure Sku where
  name : String
  cost : ℚ
deriving DecidableEq, Repr

structure Discount where
  name : String
  discountStrategy : DiscountStrategy
  discountAmount : ℚ
deriving DecidableEq, Repr

def items : ItemType → Sku
  | .membership => { name := "2022-2023 annual base membership", cost := 135 }
  | .firstLeague => { name := "First league", cost := 155 }
  | .secondLeague => { name := "Second league", cost := 155 }
  | .thirdLeague => { name := "Third league", cost := 155 }
  | .additionalLeague => { name := "Additional league", cost := 55 }
  | .basicIce =>
      { name := "Basic ice privileges (unlimited sparing and daytime leagues)"
        cost := 115 }
  | .basicIceReduced =>
      { name := "Basic ice privileges (unlimited sparing and daytime leagues)"
        cost := 55 }
  | .social => { name := "Social membership (no dues)", cost := 50 }

def discounts : DiscountType → Discount
  | .family =>
      { name := "Family discount", discountStrategy := .percentage
        discountAmount := 5 }
  | .student =>
      { name := "Student discount", discountStrategy := .percentage
        discountAmount := 30 }
  | .reciprocal =>
      { name := "Reciprocal member discount", discountStrategy := .absolute
        discountAmount := 75 }
  | .winterOnly =>
      { name := "Winter-only discount", discountStrategy := .absolute
        discountAmount := 35 }

def discountTypeSortValues : DiscountStrategy → Nat
  | .absolute => 1
  | .percentage => 2

/-- JavaScript's String.prototype.includes on the underlying character list. -/
def charsIncludes (needle : List Char) : List Char → Bool
  | [] => needle.isEmpty
  | c :: rest => needle.isPrefixOf (c :: rest) || charsIncludes needle rest

def jsIncludes (s pat : String) : Bool := charsIncludes pat.toList s.toList

/-- One step of the stable sort on discounts: insert `d` after every element
whose comparator key is strictly smaller, i.e. before the first element with
key greater than or equal to `d`'s key, which keeps elements that compare
equal in their original relative order (stability). -/
def insertD (d : Discount) : List Discount → List Discount
  | [] => [d]
  | x :: xs =>
      if discountTypeSortValues x.discountStrategy <
          discountTypeSortValues d.discountStrategy
      then x :: insertD d xs
      else d :: x :: xs

/-- The stable sort performed by Cart.addDiscount: sorts by
discountTypeSortValues of the strategy, absolute (1) before percentage (2),
keeping insertion order within each strategy group, exactly as ECMAScript's
stable Array.prototype.sort with comparator a-b does. -/
def sortDiscounts : List Discount → List Discount
  | [] => []
  | x :: xs => insertD x (sortDiscounts xs)

structure Cart where
  cartItems : List Sku
  cartDiscounts : List Discount
deriving DecidableEq, Repr

def Cart.empty : Cart := { cartItems := [], cartDiscounts := [] }

def Cart.addItem (c : Cart) (name : ItemType) : Cart :=
  { c with cartItems := c.cartItems ++ [items name] }

def Cart.addDiscount (c : Cart) (name : DiscountType) : Cart :=
  { c with cartDiscounts := sortDiscounts (c.cartDiscounts ++ [discounts name]) }

def Cart.hasItem (c : Cart) (name : ItemType) : Bool :=
  (c.cartItems.find? fun i => i.name == (items name).name).isSome

/-- The filter predicate of Cart.getLeagueCount: the catalog name contains
the substring "league" but not "daytime". -/
def isLeagueSku (i : Sku) : Bool :=
  jsIncludes i.name "league" && !(jsIncludes i.name "daytime")

def Cart.getLeagueCount (c : Cart) : Nat :=
  (c.cartItems.filter isLeagueSku).length

def Cart.getTotal (c : Cart) : ℚ :=
  let itemTotal := c.cartItems.foldl (fun p i => i.cost + p) 0
  c.cartDiscounts.foldl
    (fun grandTotal discount =>
      match discount.discountStrategy with
      | .absolute => grandTotal - discount.discountAmount
      | .percentage => grandTotal * (1 - discount.discountAmount / 100))
    itemTotal

/-- getItems returns a deep copy in the source; a copy is the identity in this
pure model. -/
def Cart.getItems (c : Cart) : List Sku := c.cartItems

def Cart.getDiscounts (c : Cart) : List Discount := c.cartDiscounts

inductive SocialType
  | dues | noDues
deriving DecidableEq, Repr

/-- The TS selection type excludes winterOnly from the user-facing discount
field (Exclude<DiscountType, "winterOnly">). -/
inductive UserDiscount
  | family | student | reciprocal
deriving DecidableEq, Repr

structure GetCostParams where
  fallRegularLeagues : Nat
  fallDayLeagues : Bool
  fallSpareOnly : Bool
  fallSocial : Option SocialType
  winterRegularLeagues : Nat
  winterDayLeagues : Bool
  winterSpareOnly : Bool
  winterSocial : Option SocialType
  discount : Option UserDiscount
deriving DecidableEq, Repr

/-- Condition of the fall membership gate in getCarts, written out verbatim. -/
def fallMembWanted (p : GetCostParams) : Prop :=
  p.fallDayLeagues = true ∨ p.fallSpareOnly = true ∨
    0 < p.fallRegularLeagues ∨ p.fallSocial = some SocialType.dues

/-- Condition of the winter membership gate in getCarts (not counting the
guard that fall must lack membership), written out verbatim. -/
def winterMembWanted (p : GetCostParams) : Prop :=
  p.winterDayLeagues = true ∨ p.winterSpareOnly = true ∨
    0 < p.winterRegularLeagues ∨ p.winterSocial = some SocialType.dues

instance (p : GetCostParams) : Decidable (fallMembWanted p) := by
  unfold fallMembWanted; infer_instance

instance (p : GetCostParams) : Decidable (winterMembWanted p) := by
  unfold winterMembWanted; infer_instance

def leagueOrder : List ItemType := [.firstLeague, .secondLeague, .thirdLeague]

/-- The for-loop in getCarts adding regular leagues: each iteration pops the
next named slot from the shared pool (Array.prototype.shift) and falls back to
additionalLeague once the pool is exhausted. -/
def addRegularLeagues (cart : Cart) (pool : List ItemType) :
    Nat → Cart × List ItemType
  | 0 => (cart, pool)
  | n + 1 =>
      match pool with
      | [] => addRegularLeagues (cart.addItem .additionalLeague) [] n
      | slot :: rest => addRegularLeagues (cart.addItem slot) rest n

/-- Fall membership gate of getCarts. -/
def fallCart1 (p : GetCostParams) : Cart :=
  if fallMembWanted p
  then Cart.empty.addItem .membership
  else Cart.empty

/-- Fall regular-league loop of getCarts, consuming the shared slot pool. -/
def fallLeaguesStep (p : GetCostParams) : Cart × List ItemType :=
  addRegularLeagues (fallCart1 p) leagueOrder p.fallRegularLeagues

def fallCart2 (p : GetCostParams) : Cart := (fallLeaguesStep p).1

def leagueOrderAfterFall (p : GetCostParams) : List ItemType :=
  (fallLeaguesStep p).2

/-- Fall basic-ice / social step of getCarts. -/
def fallCart3 (p : GetCostParams) : Cart :=
  if p.fallRegularLeagues = 0 then
    if p.fallDayLeagues ∨ p.fallSpareOnly then (fallCart2 p).addItem .basicIce
    else if p.fallSocial = some .noDues then (fallCart2 p).addItem .social
    else fallCart2 p
  else fallCart2 p

/-- Fall discount step of getCarts: the final fall cart. -/
def fallCart (p : GetCostParams) : Cart :=
  if 0 < (fallCart3 p).getItems.length ∧ (fallCart3 p).hasItem .membership then
    let c :=
      if p.discount = some .reciprocal ∧ 0 < (fallCart3 p).getLeagueCount
      then (fallCart3 p).addDiscount .reciprocal
      else fallCart3 p
    if p.discount = some .family then c.addDiscount .family
    else if p.discount = some .student then c.addDiscount .student
    else c
  else fallCart3 p

/-- Winter membership gate of getCarts (with the automatic winter-only
discount). -/
def winterCart1 (p : GetCostParams) : Cart :=
  if ¬ (fallCart p).hasItem .membership then
    if winterMembWanted p
    then (Cart.empty.addItem .membership).addDiscount .winterOnly
    else Cart.empty
  else Cart.empty

/-- Winter regular-league loop, continuing from the pool state fall left. -/
def winterCart2 (p : GetCostParams) : Cart :=
  (addRegularLeagues (winterCart1 p) (leagueOrderAfterFall p)
    p.winterRegularLeagues).1

/-- Winter basic-ice / social step of getCarts. -/
def winterCart3 (p : GetCostParams) : Cart :=
  if p.winterRegularLeagues = 0 then
    if p.winterDayLeagues ∨ p.winterSpareOnly then
      if 3 ≤ (fallCart p).getLeagueCount
      then (winterCart2 p).addItem .basicIceReduced
      else (winterCart2 p).addItem .basicIce
    else if p.winterSocial = some .noDues ∧ ¬ (fallCart p).hasItem .social ∧
        ¬ (fallCart p).hasItem .membership
    then (winterCart2 p).addItem .social
    else winterCart2 p
  else winterCart2 p

/-- Winter discount step of getCarts: the final winter cart. -/
def winterCart (p : GetCostParams) : Cart :=
  if 0 < (winterCart3 p).getItems.length then
    let c :=
      if p.discount = some .reciprocal ∧
          (winterCart3 p).hasItem .membership ∧
          ¬ (fallCart p).hasItem .membership ∧
          0 < (winterCart3 p).getLeagueCount
      then (winterCart3 p).addDiscount .reciprocal
      else winterCart3 p
    if p.discount = some .family then c.addDiscount .family
    else if p.discount = some .student then c.addDiscount .student
    else c
  else winterCart3 p

/-- The enrollment resolver (resolveEnrollment in the spec, getCarts in the
source). -/
def getCarts (p : GetCostParams) : Cart × Cart := (fallCart p, winterCart p)

inductive Benefit
  | roster | nameTag | social | agm | bartending | dues | voting
  | buildingAccess | ice | daytime | sparing | rentals | training
  | clubSpiel | leagues | none
deriving DecidableEq, Repr

structure Benefits where
  fall : List Benefit
  winter : List Benefit
  annual : List Benefit
deriving DecidableEq, Repr

/-- The benefit resolver (resolveBenefits in the spec, getBenefits in the
source); the imperative pushes become list appends in push order. -/
def getBenefits (fallCart winterCart : Cart) : Benefits :=
  let fallSocial := fallCart.hasItem .social
  let winterSocial := winterCart.hasItem .social
  let fallMembership := fallCart.hasItem .membership
  let winterMembership := winterCart.hasItem .membership
  let fallLeagues := fallCart.getLeagueCount
  let winterLeagues := winterCart.getLeagueCount
  let fallIce := fallCart.hasItem .basicIce || decide (0 < fallLeagues)
  let winterIce := winterCart.hasItem .basicIce || decide (0 < winterLeagues)
  let annual :=
    (if fallSocial || winterSocial || fallMembership || winterMembership then
      [Benefit.roster, Benefit.social, Benefit.agm, Benefit.bartending]
    else []) ++
    (if fallMembership || winterMembership then
      (if !(fallCart.getDiscounts.any fun d =>
            d.name == "Reciprocal member discount") &&
          !(winterCart.getDiscounts.any fun d =>
            d.name == "Reciprocal member discount")
      then [Benefit.dues] else []) ++ [Benefit.voting]
    else []) ++
    (if fallIce || winterIce then [Benefit.clubSpiel] else []) ++
    (if fallCart.getTotal = 0 ∧ winterCart.getTotal = 0 then [Benefit.none]
    else [])
  let fall :=
    (if fallIce then
      [Benefit.buildingAccess, Benefit.ice, Benefit.daytime, Benefit.sparing,
        Benefit.rentals, Benefit.training]
    else []) ++
    (if 0 < fallLeagues then [Benefit.leagues] else [])
  let winter :=
    (if winterIce then
      [Benefit.buildingAccess, Benefit.ice, Benefit.daytime, Benefit.sparing,
        Benefit.rentals, Benefit.training]
    else []) ++
    (if 0 < winterLeagues then [Benefit.leagues] else [])
  { fall := fall, winter := winter, annual := annual }

/-- An arbitrary client interaction with one Cart: any interleaving of
addItem and addDiscount calls. -/
inductive CartOp
  | addItem (name : ItemType)
  | addDiscount (name : DiscountType)
deriving DecidableEq, Repr

def applyOp (c : Cart) : CartOp → Cart
  | .addItem n => c.addItem n
  | .addDiscount n => c.addDiscount n

def applyOps (c : Cart) (ops : List CartOp) : Cart := ops.foldl applyOp c

def opItems (ops : List CartOp) : List Sku :=
  ops.filterMap fun op =>
    match op with
    | .addItem n => some (items n)
    | _ => Option.none

def opDiscounts (ops : List CartOp) : List Discount :=
  ops.filterMap fun op =>
    match op with
    | .addDiscount n => some (discounts n)
    | _ => Option.none

def isAbsoluteD (d : Discount) : Bool :=
  d.discountStrategy == DiscountStrategy.absolute

def isPercentageD (d : Discount) : Bool :=
  d.discountStrategy == DiscountStrategy.percentage

/-- The unique stable partition: absolute-strategy discounts first, then
percentage-strategy discounts, each group in its original order. -/
def partitionD (l : List Discount) : List Discount :=
  l.filter isAbsoluteD ++ l.filter isPercentageD

def sumAbsolute (l : List Discount) : ℚ :=
  ((l.filter isAbsoluteD).map Discount.discountAmount).sum

def prodPercent (l : List Discount) : ℚ :=
  ((l.filter isPercentageD).map fun d => 1 - d.discountAmount / 100).prod

/-! ### The stable sort produces the stable partition -/

lemma insertD_nil (d : Discount) : insertD d [] = [d] := rfl

lemma insertD_cons (d x : Discount) (xs : List Discount) :
    insertD d (x :: xs) =
      if discountTypeSortValues x.discountStrategy <
          discountTypeSortValues d.discountStrategy
      then x :: insertD d xs
      else d :: x :: xs := rfl

lemma insertD_absolute (d : Discount) (l : List Discount)
    (h : d.discountStrategy = DiscountStrategy.absolute) :
    insertD d l = d :: l := by
  cases l with
  | nil => rfl
  | cons x xs =>
      rw [insertD_cons, h]
      cases hx : x.discountStrategy <;> simp [discountTypeSortValues, hx]

lemma insertD_percentage (d : Discount)
    (h : d.discountStrategy = DiscountStrategy.percentage) :
    ∀ (A P : List Discount),
      (∀ a ∈ A, a.discountStrategy = DiscountStrategy.absolute) →
      (∀ q ∈ P, q.discountStrategy = DiscountStrategy.percentage) →
      insertD d (A ++ P) = A ++ d :: P := by
  intro A
  induction A with
  | nil =>
      intro P _ hP
      simp only [List.nil_append]
      cases P with
      | nil => rfl
      | cons q qs =>
          rw [insertD_cons, h, hP q (by simp)]
          simp [discountTypeSortValues]
  | cons a as ih =>
      intro P hA hP
      simp only [List.cons_append]
      rw [insertD_cons, h, hA a (by simp)]
      simp only [discountTypeSortValues, if_pos (by norm_num : (1 : ℕ) < 2)]
      rw [ih P (fun x hx => hA x (by simp [hx])) hP]

lemma mem_filter_absolute {l : List Discount} {a : Discount}
    (h : a ∈ l.filter isAbsoluteD) :
    a.discountStrategy = DiscountStrategy.absolute := by
  have := (List.mem_filter.mp h).2
  simpa [isAbsoluteD] using this

lemma mem_filter_percentage {l : List Discount} {a : Discount}
    (h : a ∈ l.filter isPercentageD) :
    a.discountStrategy = DiscountStrategy.percentage := by
  have := (List.mem_filter.mp h).2
  simpa [isPercentageD] using this

/-- The insertion sort used by addDiscount computes exactly the stable
partition: absolute discounts first, each group in input order. -/
lemma sortDiscounts_eq_partitionD (l : List Discount) :
    sortDiscounts l = partitionD l := by
  induction l with
  | nil => rfl
  | cons x xs ih =>
      show insertD x (sortDiscounts xs) = partitionD (x :: xs)
      rw [ih]
      unfold partitionD
      cases hx : x.discountStrategy with
      | absolute =>
          rw [insertD_absolute x _ hx]
          simp [List.filter_cons, isAbsoluteD, isPercentageD, hx]
      | percentage =>
          rw [insertD_percentage x hx _ _
            (fun a ha => mem_filter_absolute ha)
            (fun q hq => mem_filter_percentage hq)]
          simp [List.filter_cons, isAbsoluteD, isPercentageD, hx]

lemma filter_abs_of_abs (l : List Discount) :
    (l.filter isAbsoluteD).filter isAbsoluteD = l.filter isAbsoluteD := by
  rw [List.filter_eq_self]
  intro a ha
  simp [isAbsoluteD, mem_filter_absolute ha]

lemma filter_pct_of_pct (l : List Discount) :
    (l.filter isPercentageD).filter isPercentageD = l.filter isPercentageD := by
  rw [List.filter_eq_self]
  intro a ha
  simp [isPercentageD, mem_filter_percentage ha]

lemma filter_abs_of_pct (l : List Discount) :
    (l.filter isPercentageD).filter isAbsoluteD = [] := by
  rw [List.filter_eq_nil_iff]
  intro a ha
  simp [isAbsoluteD, mem_filter_percentage ha]

lemma filter_pct_of_abs (l : List Discount) :
    (l.filter isAbsoluteD).filter isPercentageD = [] := by
  rw [List.filter_eq_nil_iff]
  intro a ha
  simp [isPercentageD, mem_filter_absolute ha]

lemma partitionD_partitionD_append (l r : List Discount) :
    partitionD (partitionD l ++ r) = partitionD (l ++ r) := by
  unfold partitionD
  simp only [List.filter_append, filter_abs_of_abs, filter_pct_of_pct,
    filter_abs_of_pct, filter_pct_of_abs, List.append_nil, List.nil_append,
    List.append_assoc]

lemma partitionD_idem (l : List Discount) :
    partitionD (partitionD l) = partitionD l := by
  have h := partitionD_partitionD_append l []
  simpa using h

/-! ### Carts built by arbitrary operation sequences -/

@[simp] lemma addItem_cartDiscounts (c : Cart) (n : ItemType) :
    (c.addItem n).cartDiscounts = c.cartDiscounts := rfl

@[simp] lemma addItem_cartItems (c : Cart) (n : ItemType) :
    (c.addItem n).cartItems = c.cartItems ++ [items n] := rfl

@[simp] lemma addDiscount_cartItems (c : Cart) (n : DiscountType) :
    (c.addDiscount n).cartItems = c.cartItems := rfl

@[simp] lemma addDiscount_cartDiscounts (c : Cart) (n : DiscountType) :
    (c.addDiscount n).cartDiscounts =
      sortDiscounts (c.cartDiscounts ++ [discounts n]) := rfl

lemma applyOps_cartItems (ops : List CartOp) :
    ∀ c : Cart, (applyOps c ops).cartItems = c.cartItems ++ opItems ops := by
  induction ops with
  | nil => intro c; simp [applyOps, opItems]
  | cons op rest ih =>
      intro c
      show (applyOps (applyOp c op) rest).cartItems = _
      rw [ih]
      cases op <;> simp [applyOp, opItems, List.filterMap_cons]

lemma applyOps_cartDiscounts (ops : List CartOp) :
    ∀ c : Cart, c.cartDiscounts = partitionD c.cartDiscounts →
      (applyOps c ops).cartDiscounts =
        partitionD (c.cartDiscounts ++ opDiscounts ops) := by
  induction ops with
  | nil =>
      intro c hc
      show c.cartDiscounts = _
      simpa [applyOps, opDiscounts] using hc
  | cons op rest ih =>
      intro c hc
      show (applyOps (applyOp c op) rest).cartDiscounts = _
      cases op with
      | addItem n =>
          show (applyOps (c.addItem n) rest).cartDiscounts = _
          rw [ih (c.addItem n) (by simpa using hc)]
          simp [opDiscounts, List.filterMap_cons]
      | addDiscount n =>
          show (applyOps (c.addDiscount n) rest).cartDiscounts = _
          have hstep : (c.addDiscount n).cartDiscounts =
              partitionD (c.cartDiscounts ++ [discounts n]) := by
            simp [sortDiscounts_eq_partitionD]
          rw [ih (c.addDiscount n) (by rw [hstep, partitionD_idem]),
            hstep, partitionD_partitionD_append]
          simp [opDiscounts, List.filterMap_cons, List.append_assoc]

lemma applyOps_empty_eq (ops : List CartOp) :
    applyOps Cart.empty ops =
      { cartItems := opItems ops,
        cartDiscounts := partitionD (opDiscounts ops) } := by
  have h1 := applyOps_cartItems ops Cart.empty
  have h2 := applyOps_cartDiscounts ops Cart.empty rfl
  calc applyOps Cart.empty ops
      = { cartItems := (applyOps Cart.empty ops).cartItems,
          cartDiscounts := (applyOps Cart.empty ops).cartDiscounts } := rfl
    _ = _ := by rw [h1, h2]; simp [Cart.empty]

/-! ### The total of a cart with partitioned discounts -/

lemma foldl_cost (l : List Sku) (x : ℚ) :
    l.foldl (fun p i => i.cost + p) x = (l.map Sku.cost).sum + x := by
  induction l generalizing x with
  | nil => simp
  | cons y ys ih => simp [List.foldl_cons, ih]; ring

lemma foldl_discount_absolute (A : List Discount)
    (hA : ∀ a ∈ A, a.discountStrategy = DiscountStrategy.absolute) :
    ∀ x : ℚ,
      A.foldl
        (fun grandTotal discount =>
          match discount.discountStrategy with
          | .absolute => grandTotal - discount.discountAmount
          | .percentage => grandTotal * (1 - discount.discountAmount / 100)) x =
      x - (A.map Discount.discountAmount).sum := by
  induction A with
  | nil => intro x; simp
  | cons a as ih =>
      intro x
      rw [List.foldl_cons]
      have ha := hA a (by simp)
      rw [show (match a.discountStrategy with
          | DiscountStrategy.absolute => x - a.discountAmount
          | DiscountStrategy.percentage =>
              x * (1 - a.discountAmount / 100)) = x - a.discountAmount by
        rw [ha]]
      rw [ih (fun b hb => hA b (by simp [hb]))]
      simp
      ring

lemma foldl_discount_percentage (P : List Discount)
    (hP : ∀ q ∈ P, q.discountStrategy = DiscountStrategy.percentage) :
    ∀ x : ℚ,
      P.foldl
        (fun grandTotal discount =>
          match discount.discountStrategy with
          | .absolute => grandTotal - discount.discountAmount
          | .percentage => grandTotal * (1 - discount.discountAmount / 100)) x =
      x * (P.map fun d => 1 - d.discountAmount / 100).prod := by
  induction P with
  | nil => intro x; simp
  | cons q qs ih =>
      intro x
      rw [List.foldl_cons]
      have hq := hP q (by simp)
      rw [show (match q.discountStrategy with
          | DiscountStrategy.absolute => x - q.discountAmount
          | DiscountStrategy.percentage =>
              x * (1 - q.discountAmount / 100)) =
          x * (1 - q.discountAmount / 100) by rw [hq]]
      rw [ih (fun b hb => hP b (by simp [hb]))]
      simp
      ring

lemma getTotal_partitioned (is : List Sku) (l : List Discount) :
    Cart.getTotal { cartItems := is, cartDiscounts := partitionD l } =
      ((is.map Sku.cost).sum - sumAbsolute l) * prodPercent l := by
  show (partitionD l).foldl _ (is.foldl (fun p i => i.cost + p) 0) = _
  rw [foldl_cost]
  unfold partitionD
  rw [List.foldl_append]
  rw [foldl_discount_absolute _ (fun a ha => mem_filter_absolute ha)]
  rw [foldl_discount_percentage _ (fun q hq => mem_filter_percentage hq)]
  simp [sumAbsolute, prodPercent]

/-! ### Generic helper lemmas -/

lemma find?_isSome_eq_any {α : Type} (l : List α) (p : α → Bool) :
    (l.find? p).isSome = l.any p := by
  induction l with
  | nil => rfl
  | cons x xs ih => cases h : p x <;> simp [List.find?_cons, List.any_cons, h, ih]

lemma hasItem_eq_any (c : Cart) (t : ItemType) :
    c.hasItem t = c.cartItems.any fun i => i.name == (items t).name := by
  unfold Cart.hasItem
  exact find?_isSome_eq_any _ _

lemma any_replicate_false {α : Type} (n : Nat) (a : α) (f : α → Bool)
    (h : f a = false) : (List.replicate n a).any f = false := by
  induction n with
  | zero => rfl
  | succ k ih => simp [List.replicate_succ, h, ih]

lemma filter_replicate_true {α : Type} (n : Nat) (a : α) (f : α → Bool)
    (h : f a = true) : (List.replicate n a).filter f = List.replicate n a := by
  induction n with
  | zero => rfl
  | succ k ih => simp [List.replicate_succ, List.filter_cons, h, ih]

lemma map_items_any_false {l : List ItemType} (hsub : l ⊆ leagueOrder)
    (f : Sku → Bool) (h₁ : f (items .firstLeague) = false)
    (h₂ : f (items .secondLeague) = false)
    (h₃ : f (items .thirdLeague) = false) :
    (l.map items).any f = false := by
  rw [List.any_eq_false]
  intro x hx
  obtain ⟨y, hy, rfl⟩ := List.mem_map.mp hx
  have hy2 : y ∈ leagueOrder := hsub hy
  simp only [leagueOrder, List.mem_cons, List.not_mem_nil, or_false] at hy2
  rcases hy2 with rfl | rfl | rfl <;> simp [h₁, h₂, h₃]

lemma map_items_filter_true {l : List ItemType} (hsub : l ⊆ leagueOrder)
    (f : Sku → Bool) (h₁ : f (items .firstLeague) = true)
    (h₂ : f (items .secondLeague) = true)
    (h₃ : f (items .thirdLeague) = true) :
    (l.map items).filter f = l.map items := by
  rw [List.filter_eq_self]
  intro x hx
  obtain ⟨y, hy, rfl⟩ := List.mem_map.mp hx
  have hy2 : y ∈ leagueOrder := hsub hy
  simp only [leagueOrder, List.mem_cons, List.not_mem_nil, or_false] at hy2
  rcases hy2 with rfl | rfl | rfl <;> simp [h₁, h₂, h₃]

/-! ### Characterizing the league-slot loop -/

lemma addRegularLeagues_spec :
    ∀ (n : Nat) (c : Cart) (pool : List ItemType),
      addRegularLeagues c pool n =
        ({ cartItems := c.cartItems ++ ((pool.take n).map items ++
             List.replicate (n - pool.length) (items .additionalLeague)),
           cartDiscounts := c.cartDiscounts },
         pool.drop n) := by
  intro n
  induction n with
  | zero => intro c pool; simp [addRegularLeagues]
  | succ k ih =>
      intro c pool
      cases pool with
      | nil =>
          show addRegularLeagues (c.addItem .additionalLeague) [] k = _
          rw [ih]
          simp [Cart.addItem, List.replicate_succ]
      | cons s rest =>
          show addRegularLeagues (c.addItem s) rest k = _
          rw [ih]
          simp [Cart.addItem, List.take_succ_cons, List.drop_succ_cons,
            Nat.succ_sub_succ]

/-! ### Closed forms for the fall cart -/

/-- Reads off the fall basic-ice / social step. -/
def fallIceSocialSpec (p : GetCostParams) : List Sku :=
  if p.fallRegularLeagues = 0 then
    if p.fallDayLeagues ∨ p.fallSpareOnly then [items .basicIce]
    else if p.fallSocial = some SocialType.noDues then [items .social]
    else []
  else []

/-- Closed form of the final fall cart's item list. -/
def fallItemsSpec (p : GetCostParams) : List Sku :=
  (if fallMembWanted p then [items .membership] else []) ++
    ((leagueOrder.take p.fallRegularLeagues).map items ++
      (List.replicate (p.fallRegularLeagues - 3) (items .additionalLeague) ++
        fallIceSocialSpec p))

/-- Closed form of the final fall cart's discount list. -/
def fallDiscountsSpec (p : GetCostParams) : List Discount :=
  if fallMembWanted p then
    (if p.discount = some UserDiscount.reciprocal ∧ 0 < p.fallRegularLeagues
     then [discounts .reciprocal] else []) ++
    (if p.discount = some UserDiscount.family then [discounts .family]
     else if p.discount = some UserDiscount.student then [discounts .student]
     else [])
  else []

/-- The final fall cart contains the social item exactly under this
condition. -/
def fallHasSocialCond (p : GetCostParams) : Prop :=
  p.fallRegularLeagues = 0 ∧
    ¬ (p.fallDayLeagues = true ∨ p.fallSpareOnly = true) ∧
    p.fallSocial = some SocialType.noDues

instance (p : GetCostParams) : Decidable (fallHasSocialCond p) := by
  unfold fallHasSocialCond; infer_instance

lemma fallCart1_eq (p : GetCostParams) :
    fallCart1 p =
      { cartItems := if fallMembWanted p then [items .membership] else [],
        cartDiscounts := [] } := by
  unfold fallCart1
  split <;> rfl

lemma fallCart2_eq (p : GetCostParams) :
    fallCart2 p =
      { cartItems :=
          (if fallMembWanted p then [items .membership] else []) ++
            ((leagueOrder.take p.fallRegularLeagues).map items ++
              List.replicate (p.fallRegularLeagues - 3)
                (items .additionalLeague)),
        cartDiscounts := [] } := by
  unfold fallCart2 fallLeaguesStep
  rw [fallCart1_eq, addRegularLeagues_spec]
  simp [leagueOrder]

lemma leagueOrderAfterFall_eq (p : GetCostParams) :
    leagueOrderAfterFall p = leagueOrder.drop p.fallRegularLeagues := by
  unfold leagueOrderAfterFall fallLeaguesStep
  rw [addRegularLeagues_spec]

lemma fallCart3_eq (p : GetCostParams) :
    fallCart3 p = { cartItems := fallItemsSpec p, cartDiscounts := [] } := by
  unfold fallCart3 fallItemsSpec fallIceSocialSpec
  by_cases h0 : p.fallRegularLeagues = 0
  · by_cases hds : p.fallDayLeagues ∨ p.fallSpareOnly
    · simp [h0, hds, fallCart2_eq, Cart.addItem, List.append_assoc]
    · by_cases hsoc : p.fallSocial = some SocialType.noDues
      · simp [h0, hds, hsoc, fallCart2_eq, Cart.addItem, List.append_assoc]
      · simp [h0, hds, hsoc, fallCart2_eq, List.append_assoc]
  · simp [h0, fallCart2_eq, List.append_assoc]

lemma fallCart3_items (p : GetCostParams) :
    (fallCart3 p).cartItems = fallItemsSpec p := by rw [fallCart3_eq]

lemma fallCart3_discounts (p : GetCostParams) :
    (fallCart3 p).cartDiscounts = [] := by rw [fallCart3_eq]

lemma fallIceSocial_any_membership (p : GetCostParams) :
    ((fallIceSocialSpec p).any fun i =>
      i.name == (items ItemType.membership).name) = false := by
  unfold fallIceSocialSpec
  by_cases h0 : p.fallRegularLeagues = 0
  · by_cases hds : p.fallDayLeagues ∨ p.fallSpareOnly
    · simp [h0, hds, items]
    · by_cases hsoc : p.fallSocial = some SocialType.noDues <;>
        simp [h0, hds, hsoc, items]
  · simp [h0]

lemma fallItemsSpec_any_membership (p : GetCostParams) :
    (((fallItemsSpec p).any fun i =>
      i.name == (items ItemType.membership).name) = true) ↔
      fallMembWanted p := by
  unfold fallItemsSpec
  rw [List.any_append, List.any_append, List.any_append]
  rw [map_items_any_false (List.take_subset _ _) _ (by decide) (by decide)
    (by decide)]
  rw [any_replicate_false _ _ _ (by decide)]
  rw [fallIceSocial_any_membership]
  by_cases hFm : fallMembWanted p <;> simp [hFm]

lemma fallCart3_hasItem_membership (p : GetCostParams) :
    ((fallCart3 p).hasItem .membership = true) ↔ fallMembWanted p := by
  rw [hasItem_eq_any, fallCart3_items]
  exact fallItemsSpec_any_membership p

lemma fallIceSocial_any_social (p : GetCostParams) :
    (((fallIceSocialSpec p).any fun i =>
      i.name == (items ItemType.social).name) = true) ↔
      fallHasSocialCond p := by
  unfold fallIceSocialSpec fallHasSocialCond
  by_cases h0 : p.fallRegularLeagues = 0
  · by_cases hds : p.fallDayLeagues ∨ p.fallSpareOnly
    · simp [h0, hds, items]
    · by_cases hsoc : p.fallSocial = some SocialType.noDues <;>
        simp [h0, hds, hsoc, items]
  · simp [h0]

lemma fallItemsSpec_any_social (p : GetCostParams) :
    (((fallItemsSpec p).any fun i =>
      i.name == (items ItemType.social).name) = true) ↔
      fallHasSocialCond p := by
  unfold fallItemsSpec
  rw [List.any_append, List.any_append, List.any_append]
  rw [map_items_any_false (List.take_subset _ _) _ (by decide) (by decide)
    (by decide)]
  rw [any_replicate_false _ _ _ (by decide)]
  rw [Bool.false_or, Bool.false_or]
  by_cases hFm : fallMembWanted p
  · rw [if_pos hFm]
    simp only [List.any_cons, List.any_nil, Bool.or_false]
    rw [show ((items ItemType.membership).name ==
      (items ItemType.social).name) = false from by decide]
    rw [Bool.false_or]
    exact fallIceSocial_any_social p
  · rw [if_neg hFm]
    simp only [List.any_nil, Bool.false_or]
    exact fallIceSocial_any_social p

lemma fallCart3_hasItem_social (p : GetCostParams) :
    ((fallCart3 p).hasItem .social = true) ↔ fallHasSocialCond p := by
  rw [hasItem_eq_any, fallCart3_items]
  exact fallItemsSpec_any_social p

/-- The league items of the final fall cart, in order: the named slots taken
from the shared pool, then the additional-league items. -/
lemma fallItemsSpec_leagueFilter (p : GetCostParams) :
    (fallItemsSpec p).filter isLeagueSku =
      (leagueOrder.take p.fallRegularLeagues).map items ++
        List.replicate (p.fallRegularLeagues - 3) (items .additionalLeague) := by
  unfold fallItemsSpec
  rw [List.filter_append, List.filter_append, List.filter_append]
  rw [map_items_filter_true (List.take_subset _ _) _ (by decide) (by decide)
    (by decide)]
  rw [filter_replicate_true _ _ _ (by decide)]
  have hm : (if fallMembWanted p then [items ItemType.membership] else
      []).filter isLeagueSku = [] := by
    split <;> decide
  have hi : (fallIceSocialSpec p).filter isLeagueSku = [] := by
    unfold fallIceSocialSpec
    by_cases h0 : p.fallRegularLeagues = 0
    · by_cases hds : p.fallDayLeagues ∨ p.fallSpareOnly
      · simp [h0, hds]; decide
      · by_cases hsoc : p.fallSocial = some SocialType.noDues <;>
          (simp [h0, hds, hsoc]; try decide)
    · simp [h0]
  rw [hm, hi]
  simp

lemma fallItemsSpec_leagueCount (p : GetCostParams) :
    ((fallItemsSpec p).filter isLeagueSku).length = p.fallRegularLeagues := by
  rw [fallItemsSpec_leagueFilter]
  simp [List.length_take, leagueOrder]
  omega

lemma fallCart3_getLeagueCount (p : GetCostParams) :
    (fallCart3 p).getLeagueCount = p.fallRegularLeagues := by
  show ((fallCart3 p).cartItems.filter isLeagueSku).length = _
  rw [fallCart3_items]
  exact fallItemsSpec_leagueCount p

/-- The fall discount gate (non-empty cart with membership) is equivalent to
the fall membership gate alone. -/
lemma fallGate_iff (p : GetCostParams) :
    (0 < (fallCart3 p).getItems.length ∧
      (fallCart3 p).hasItem .membership = true) ↔ fallMembWanted p := by
  constructor
  · intro h
    exact (fallCart3_hasItem_membership p).mp h.2
  · intro hFm
    refine ⟨?_, (fallCart3_hasItem_membership p).mpr hFm⟩
    show 0 < (fallCart3 p).cartItems.length
    rw [fallCart3_items]
    unfold fallItemsSpec
    simp [hFm]

lemma fallCart_cartItems (p : GetCostParams) :
    (fallCart p).cartItems = fallItemsSpec p := by
  unfold fallCart
  split
  · repeat' split
    all_goals simp [fallCart3_items]
  · exact fallCart3_items p

lemma fallCart_cartDiscounts (p : GetCostParams) :
    (fallCart p).cartDiscounts = fallDiscountsSpec p := by
  unfold fallCart fallDiscountsSpec
  by_cases hFm : fallMembWanted p
  · rw [if_pos ((fallGate_iff p).mpr hFm), if_pos hFm]
    rcases hd : p.discount with _ | u
    · simp [hd, fallCart3_discounts]
    · cases u with
      | family => simp [hd, fallCart3_discounts, sortDiscounts, insertD]
      | student => simp [hd, fallCart3_discounts, sortDiscounts, insertD]
      | reciprocal =>
          by_cases hk : 0 < p.fallRegularLeagues <;>
            simp [hd, hk, fallCart3_getLeagueCount, fallCart3_discounts,
              sortDiscounts, insertD]
  · rw [if_neg (fun hcontra => hFm ((fallGate_iff p).mp hcontra)), if_neg hFm]
    exact fallCart3_discounts p

lemma fallCart_hasItem_membership (p : GetCostParams) :
    ((fallCart p).hasItem .membership = true) ↔ fallMembWanted p := by
  rw [hasItem_eq_any, fallCart_cartItems]
  exact fallItemsSpec_any_membership p

lemma fallCart_hasItem_social (p : GetCostParams) :
    ((fallCart p).hasItem .social = true) ↔ fallHasSocialCond p := by
  rw [hasItem_eq_any, fallCart_cartItems]
  exact fallItemsSpec_any_social p

lemma fallCart_getLeagueCount (p : GetCostParams) :
    (fallCart p).getLeagueCount = p.fallRegularLeagues := by
  show ((fallCart p).cartItems.filter isLeagueSku).length = _
  rw [fallCart_cartItems]
  exact fallItemsSpec_leagueCount p

/-! ### Closed forms for the winter cart -/

/-- Reads off the winter basic-ice / social step. -/
def winterIceSocialSpec (p : GetCostParams) : List Sku :=
  if p.winterRegularLeagues = 0 then
    if p.winterDayLeagues ∨ p.winterSpareOnly then
      if 3 ≤ p.fallRegularLeagues then [items .basicIceReduced]
      else [items .basicIce]
    else if p.winterSocial = some SocialType.noDues ∧ ¬ fallHasSocialCond p ∧
        ¬ fallMembWanted p
    then [items .social]
    else []
  else []

/-- Closed form of the final winter cart's item list. -/
def winterItemsSpec (p : GetCostParams) : List Sku :=
  (if ¬ fallMembWanted p ∧ winterMembWanted p then [items .membership]
   else []) ++
    (((leagueOrder.drop p.fallRegularLeagues).take
        p.winterRegularLeagues).map items ++
      (List.replicate (p.winterRegularLeagues - (3 - p.fallRegularLeagues))
          (items .additionalLeague) ++
        winterIceSocialSpec p))

/-- Closed form of the final winter cart's discount list. -/
def winterDiscountsSpec (p : GetCostParams) : List Discount :=
  (if ¬ fallMembWanted p ∧ winterMembWanted p then [discounts .winterOnly]
   else []) ++
    (if 0 < (winterItemsSpec p).length then
      (if p.discount = some UserDiscount.reciprocal ∧
          (¬ fallMembWanted p ∧ winterMembWanted p) ∧
          0 < p.winterRegularLeagues
       then [discounts .reciprocal] else []) ++
      (if p.discount = some UserDiscount.family then [discounts .family]
       else if p.discount = some UserDiscount.student
       then [discounts .student]
       else [])
    else [])

lemma dropTake_subset_leagueOrder (p : GetCostParams) :
    (leagueOrder.drop p.fallRegularLeagues).take p.winterRegularLeagues ⊆
      leagueOrder := fun _ hx =>
  List.drop_subset _ _ (List.take_subset _ _ hx)

lemma winterCart1_eq (p : GetCostParams) :
    winterCart1 p =
      if ¬ fallMembWanted p ∧ winterMembWanted p
      then { cartItems := [items .membership],
             cartDiscounts := [discounts .winterOnly] }
      else Cart.empty := by
  unfold winterCart1
  by_cases hFm : fallMembWanted p
  · rw [if_neg (fun h => h ((fallCart_hasItem_membership p).mpr hFm)),
      if_neg (fun h => h.1 hFm)]
  · rw [if_pos (fun h => hFm ((fallCart_hasItem_membership p).mp h))]
    by_cases hWm : winterMembWanted p
    · rw [if_pos hWm, if_pos ⟨hFm, hWm⟩]
      rfl
    · rw [if_neg hWm, if_neg (fun h => hWm h.2)]

lemma winterCart2_eq (p : GetCostParams) :
    winterCart2 p =
      { cartItems :=
          (if ¬ fallMembWanted p ∧ winterMembWanted p
           then [items .membership] else []) ++
            (((leagueOrder.drop p.fallRegularLeagues).take
                p.winterRegularLeagues).map items ++
              List.replicate
                (p.winterRegularLeagues - (3 - p.fallRegularLeagues))
                (items .additionalLeague)),
        cartDiscounts :=
          if ¬ fallMembWanted p ∧ winterMembWanted p
          then [discounts .winterOnly] else [] } := by
  unfold winterCart2
  rw [winterCart1_eq, leagueOrderAfterFall_eq, addRegularLeagues_spec]
  by_cases hMW : ¬ fallMembWanted p ∧ winterMembWanted p <;>
    simp [hMW, List.length_drop, leagueOrder, Cart.empty]

lemma winterCart3_eq (p : GetCostParams) :
    winterCart3 p =
      { cartItems := winterItemsSpec p,
        cartDiscounts :=
          if ¬ fallMembWanted p ∧ winterMembWanted p
          then [discounts .winterOnly] else [] } := by
  unfold winterCart3 winterItemsSpec winterIceSocialSpec
  by_cases h0 : p.winterRegularLeagues = 0
  · by_cases hds : p.winterDayLeagues ∨ p.winterSpareOnly
    · by_cases h3 : 3 ≤ (fallCart p).getLeagueCount
      · have h3' : 3 ≤ p.fallRegularLeagues := by
          rwa [fallCart_getLeagueCount] at h3
        simp [h0, hds, h3, h3', winterCart2_eq, Cart.addItem,
          List.append_assoc]
      · have h3' : ¬ 3 ≤ p.fallRegularLeagues := by
          rwa [fallCart_getLeagueCount] at h3
        simp [h0, hds, h3, h3', winterCart2_eq, Cart.addItem,
          List.append_assoc]
    · by_cases hsoc : p.winterSocial = some SocialType.noDues ∧
          ¬ (fallCart p).hasItem .social ∧ ¬ (fallCart p).hasItem .membership
      · have hsoc' : p.winterSocial = some SocialType.noDues ∧
            ¬ fallHasSocialCond p ∧ ¬ fallMembWanted p :=
          ⟨hsoc.1, fun h => hsoc.2.1 ((fallCart_hasItem_social p).mpr h),
            fun h => hsoc.2.2 ((fallCart_hasItem_membership p).mpr h)⟩
        simp [h0, hds, hsoc, hsoc', winterCart2_eq, Cart.addItem,
          List.append_assoc]
      · have hsoc' : ¬ (p.winterSocial = some SocialType.noDues ∧
            ¬ fallHasSocialCond p ∧ ¬ fallMembWanted p) := fun h =>
          hsoc ⟨h.1, fun hh => h.2.1 ((fallCart_hasItem_social p).mp hh),
            fun hh => h.2.2 ((fallCart_hasItem_membership p).mp hh)⟩
        rw [if_pos h0, if_neg hds, if_neg hsoc, if_pos h0, if_neg hds,
          if_neg hsoc']
        rw [winterCart2_eq]
        simp [List.append_assoc]
  · simp [h0, winterCart2_eq, List.append_assoc]

lemma winterCart3_items (p : GetCostParams) :
    (winterCart3 p).cartItems = winterItemsSpec p := by rw [winterCart3_eq]

lemma winterCart3_discounts (p : GetCostParams) :
    (winterCart3 p).cartDiscounts =
      (if ¬ fallMembWanted p ∧ winterMembWanted p
       then [discounts .winterOnly] else []) := by
  rw [winterCart3_eq]

lemma winterIceSocial_any_membership (p : GetCostParams) :
    ((winterIceSocialSpec p).any fun i =>
      i.name == (items ItemType.membership).name) = false := by
  unfold winterIceSocialSpec
  by_cases h0 : p.winterRegularLeagues = 0
  · by_cases hds : p.winterDayLeagues ∨ p.winterSpareOnly
    · by_cases h3 : 3 ≤ p.fallRegularLeagues <;> simp [h0, hds, h3, items]
    · by_cases hsoc : p.winterSocial = some SocialType.noDues ∧
          ¬ fallHasSocialCond p ∧ ¬ fallMembWanted p <;>
        simp [h0, hds, hsoc, items]
  · simp [h0]

lemma winterItemsSpec_any_membership (p : GetCostParams) :
    (((winterItemsSpec p).any fun i =>
      i.name == (items ItemType.membership).name) = true) ↔
      (¬ fallMembWanted p ∧ winterMembWanted p) := by
  unfold winterItemsSpec
  rw [List.any_append, List.any_append, List.any_append]
  rw [map_items_any_false (dropTake_subset_leagueOrder p) _ (by decide)
    (by decide) (by decide)]
  rw [any_replicate_false _ _ _ (by decide)]
  rw [winterIceSocial_any_membership]
  by_cases hMW : ¬ fallMembWanted p ∧ winterMembWanted p <;> simp [hMW]

lemma winterCart3_hasItem_membership (p : GetCostParams) :
    ((winterCart3 p).hasItem .membership = true) ↔
      (¬ fallMembWanted p ∧ winterMembWanted p) := by
  rw [hasItem_eq_any, winterCart3_items]
  exact winterItemsSpec_any_membership p

/-- The league items of the final winter cart: exactly the named slots the
fall pass left unconsumed, then additional-league items. -/
lemma winterItemsSpec_leagueFilter (p : GetCostParams) :
    (winterItemsSpec p).filter isLeagueSku =
      ((leagueOrder.drop p.fallRegularLeagues).take
          p.winterRegularLeagues).map items ++
        List.replicate (p.winterRegularLeagues - (3 - p.fallRegularLeagues))
          (items .additionalLeague) := by
  unfold winterItemsSpec
  rw [List.filter_append, List.filter_append, List.filter_append]
  rw [map_items_filter_true (dropTake_subset_leagueOrder p) _ (by decide)
    (by decide) (by decide)]
  rw [filter_replicate_true _ _ _ (by decide)]
  have hm : (if ¬ fallMembWanted p ∧ winterMembWanted p then
      [items ItemType.membership] else []).filter isLeagueSku = [] := by
    split <;> decide
  have hi : (winterIceSocialSpec p).filter isLeagueSku = [] := by
    unfold winterIceSocialSpec
    by_cases h0 : p.winterRegularLeagues = 0
    · by_cases hds : p.winterDayLeagues ∨ p.winterSpareOnly
      · by_cases h3 : 3 ≤ p.fallRegularLeagues <;>
          (simp [h0, hds, h3]; try decide)
      · by_cases hsoc : p.winterSocial = some SocialType.noDues ∧
            ¬ fallHasSocialCond p ∧ ¬ fallMembWanted p <;>
          (simp [h0, hds, hsoc]; try decide)
    · simp [h0]
  rw [hm, hi]
  simp

lemma winterItemsSpec_leagueCount (p : GetCostParams) :
    ((winterItemsSpec p).filter isLeagueSku).length =
      p.winterRegularLeagues := by
  rw [winterItemsSpec_leagueFilter]
  simp [List.length_take, List.length_drop, leagueOrder]
  omega

lemma winterCart3_getLeagueCount (p : GetCostParams) :
    (winterCart3 p).getLeagueCount = p.winterRegularLeagues := by
  show ((winterCart3 p).cartItems.filter isLeagueSku).length = _
  rw [winterCart3_items]
  exact winterItemsSpec_leagueCount p

lemma winterCart_cartItems (p : GetCostParams) :
    (winterCart p).cartItems = winterItemsSpec p := by
  unfold winterCart
  split
  · repeat' split
    all_goals simp [winterCart3_items]
  · exact winterCart3_items p

lemma winterCart_cartDiscounts (p : GetCostParams) :
    (winterCart p).cartDiscounts = winterDiscountsSpec p := by
  unfold winterCart winterDiscountsSpec
  by_cases hgate : 0 < (winterItemsSpec p).length
  · have hg2 : 0 < (winterCart3 p).getItems.length := by
      show 0 < (winterCart3 p).cartItems.length
      rw [winterCart3_items]
      exact hgate
    rw [if_pos hg2, if_pos hgate]
    rcases hd : p.discount with _ | u
    · simp [hd, winterCart3_discounts]
    · cases u with
      | family =>
          by_cases hMW : ¬ fallMembWanted p ∧ winterMembWanted p <;>
            simp [hd, hMW, winterCart3_discounts, sortDiscounts, insertD,
              discounts, discountTypeSortValues]
      | student =>
          by_cases hMW : ¬ fallMembWanted p ∧ winterMembWanted p <;>
            simp [hd, hMW, winterCart3_discounts, sortDiscounts, insertD,
              discounts, discountTypeSortValues]
      | reciprocal =>
          by_cases hMW : ¬ fallMembWanted p ∧ winterMembWanted p
          · by_cases hm : 0 < p.winterRegularLeagues
            · simp [hd, hMW, hm, winterCart3_hasItem_membership,
                fallCart_hasItem_membership, winterCart3_getLeagueCount,
                winterCart3_discounts, sortDiscounts, insertD, discounts,
                discountTypeSortValues]
            · simp [hd, hMW, hm, winterCart3_hasItem_membership,
                fallCart_hasItem_membership, winterCart3_getLeagueCount,
                winterCart3_discounts, sortDiscounts, insertD, discounts,
                discountTypeSortValues]
          · simp [hd, hMW, winterCart3_hasItem_membership,
              fallCart_hasItem_membership, winterCart3_getLeagueCount,
              winterCart3_discounts, sortDiscounts, insertD, discounts,
              discountTypeSortValues]
  · have hg2 : ¬ 0 < (winterCart3 p).getItems.length := by
      show ¬ 0 < (winterCart3 p).cartItems.length
      rw [winterCart3_items]
      exact hgate
    rw [if_neg hg2, if_neg hgate]
    rw [winterCart3_discounts]
    simp

lemma winterCart_hasItem_membership (p : GetCostParams) :
    ((winterCart p).hasItem .membership = true) ↔
      (¬ fallMembWanted p ∧ winterMembWanted p) := by
  rw [hasItem_eq_any, winterCart_cartItems]
  exact winterItemsSpec_any_membership p

lemma winterCart_getLeagueCount (p : GetCostParams) :
    (winterCart p).getLeagueCount = p.winterRegularLeagues := by
  show ((winterCart p).cartItems.filter isLeagueSku).length = _
  rw [winterCart_cartItems]
  exact winterItemsSpec_leagueCount p

/-! ### Injectivity of the catalog -/

lemma discounts_inj {a b : DiscountType} (h : discounts a = discounts b) :
    a = b := by
  have hn := congrArg Discount.name h
  cases a <;> cases b <;> first
    | rfl
    | (exfalso; simp [discounts] at hn)

@[simp] lemma discounts_eq_iff (a b : DiscountType) :
    (discounts a = discounts b) ↔ a = b :=
  ⟨discounts_inj, fun h => h ▸ rfl⟩

lemma items_inj {a b : ItemType} (h : items a = items b) : a = b := by
  cases a <;> cases b <;> first
    | rfl
    | (exfalso
       have hn := congrArg Sku.name h
       simp [items] at hn
       done)
    | (exfalso
       have hc := congrArg Sku.cost h
       simp [items] at hc)

@[simp] lemma items_eq_iff (a b : ItemType) : (items a = items b) ↔ a = b :=
  ⟨items_inj, fun h => h ▸ rfl⟩

/-! ### Concrete selections and operation lists used by the claims -/

def pC1 : GetCostParams :=
  { fallRegularLeagues := 0, fallDayLeagues := false, fallSpareOnly := false
    fallSocial := Option.none, winterRegularLeagues := 1
    winterDayLeagues := false, winterSpareOnly := false
    winterSocial := Option.none, discount := some UserDiscount.family }

def pC4 : GetCostParams :=
  { fallRegularLeagues := 2, fallDayLeagues := false, fallSpareOnly := false
    fallSocial := Option.none, winterRegularLeagues := 2
    winterDayLeagues := false, winterSpareOnly := false
    winterSocial := Option.none, discount := Option.none }

def pC5w : GetCostParams :=
  { fallRegularLeagues := 0, fallDayLeagues := false, fallSpareOnly := false
    fallSocial := Option.none, winterRegularLeagues := 1
    winterDayLeagues := false, winterSpareOnly := false
    winterSocial := Option.none, discount := Option.none }

def pC9w : GetCostParams :=
  { fallRegularLeagues := 0, fallDayLeagues := true, fallSpareOnly := false
    fallSocial := Option.none, winterRegularLeagues := 0
    winterDayLeagues := true, winterSpareOnly := false
    winterSocial := Option.none, discount := Option.none }

def wC3a : List CartOp :=
  [CartOp.addDiscount .family, CartOp.addDiscount .reciprocal,
    CartOp.addItem .membership]

def wC3b : List CartOp :=
  [CartOp.addItem .membership, CartOp.addDiscount .reciprocal,
    CartOp.addDiscount .family]

def pC2w : GetCostParams :=
  { fallRegularLeagues := 1, fallDayLeagues := false, fallSpareOnly := false
    fallSocial := Option.none, winterRegularLeagues := 1
    winterDayLeagues := false, winterSpareOnly := false
    winterSocial := Option.none, discount := some UserDiscount.family }

def pC7w : GetCostParams :=
  { fallRegularLeagues := 1, fallDayLeagues := false, fallSpareOnly := false
    fallSocial := Option.none, winterRegularLeagues := 0
    winterDayLeagues := false, winterSpareOnly := false
    winterSocial := Option.none, discount := some UserDiscount.reciprocal }

lemma sumAbsolute_perm {l₁ l₂ : List Discount} (h : l₁.Perm l₂) :
    sumAbsolute l₁ = sumAbsolute l₂ :=
  List.Perm.sum_eq (List.Perm.map _ (List.Perm.filter _ h))

lemma prodPercent_perm {l₁ l₂ : List Discount} (h : l₁.Perm l₂) :
    prodPercent l₁ = prodPercent l₂ :=
  List.Perm.prod_eq (List.Perm.map _ (List.Perm.filter _ h))

/-- The fall discount gate (non-empty final fall cart containing membership)
is equivalent to the fall membership gate alone. -/
lemma fallGateFinal_iff (p : GetCostParams) :
    (0 < (fallCart p).cartItems.length ∧
      (fallCart p).hasItem .membership = true) ↔ fallMembWanted p := by
  constructor
  · intro h
    exact (fallCart_hasItem_membership p).mp h.2
  · intro hFm
    refine ⟨?_, (fallCart_hasItem_membership p).mpr hFm⟩
    rw [fallCart_cartItems]
    unfold fallItemsSpec
    simp [hFm]

/-! ### Claims -/

/-- C1 counterexample: in the scenario fall=0, winter=1 regular league,
discount=family, the winter cart total is not 237.5 as claimed; the code
computes (135+155-35)*0.95 = 242.25. -/
theorem C1_total_counterexample : (getCarts pC1).2.getTotal ≠ 237.5 := by
  have h2 : (getCarts pC1).2.getTotal = 242.25 := by
    show Cart.getTotal
      { cartItems := [items .membership, items .firstLeague],
        cartDiscounts := [discounts .winterOnly, discounts .family] } = _
    simp [Cart.getTotal, items, discounts]
    norm_num
  rw [h2]
  norm_num

/-- C1 (amended): in the scenario fall=0, winter=1 regular league,
discount=family, the fall cart is empty, the winter cart holds exactly
membership and first-league with exactly the winter-only and family
discounts, and the winter total is 242.25 (the spec scenario's own formula
(135+155-35)*0.95, which the spec miscomputed as 237.5). -/
theorem C1_scenario_amended :
    (getCarts pC1).1.cartItems = [] ∧
    (getCarts pC1).1.cartDiscounts = [] ∧
    (getCarts pC1).2.cartItems = [items .membership, items .firstLeague] ∧
    (getCarts pC1).2.cartDiscounts =
      [discounts .winterOnly, discounts .family] ∧
    (getCarts pC1).2.getTotal = 242.25 := by
  refine ⟨rfl, rfl, rfl, rfl, ?_⟩
  show Cart.getTotal
    { cartItems := [items .membership, items .firstLeague],
      cartDiscounts := [discounts .winterOnly, discounts .family] } = _
  simp [Cart.getTotal, items, discounts]
  norm_num

/-- C4: the three named league slots are consumed in order across both
seasons, fall first: the fall cart's league items are the first min(k,3)
named slots in order plus additional-league items for the rest, and the
winter cart's league items are the named slots fall left unconsumed followed
by additional-league items; in particular fall=2, winter=2 gives fall
first+second and winter third+additional. -/
theorem league_slot_assignment (p : GetCostParams) :
    (getCarts p).1.cartItems.filter isLeagueSku =
      (leagueOrder.take p.fallRegularLeagues).map items ++
        List.replicate (p.fallRegularLeagues - 3) (items .additionalLeague) ∧
    (getCarts p).2.cartItems.filter isLeagueSku =
      ((leagueOrder.drop p.fallRegularLeagues).take
          p.winterRegularLeagues).map items ++
        List.replicate (p.winterRegularLeagues - (3 - p.fallRegularLeagues))
          (items .additionalLeague) ∧
    ((leagueOrder.take p.fallRegularLeagues).map items).length =
      min p.fallRegularLeagues 3 ∧
    (getCarts pC4).1.cartItems.filter isLeagueSku =
      [items .firstLeague, items .secondLeague] ∧
    (getCarts pC4).2.cartItems.filter isLeagueSku =
      [items .thirdLeague, items .additionalLeague] := by
  refine ⟨?_, ?_, ?_, rfl, rfl⟩
  · rw [show (getCarts p).1 = fallCart p from rfl, fallCart_cartItems]
    exact fallItemsSpec_leagueFilter p
  · rw [show (getCarts p).2 = winterCart p from rfl, winterCart_cartItems]
    exact winterItemsSpec_leagueFilter p
  · simp [List.length_take, leagueOrder]

/-- C5: the winter cart contains membership only if the fall cart does not,
and whenever the winter cart contains membership the winter-only discount is
present in the winter cart. -/
theorem winter_membership_invariant (p : GetCostParams) :
    ((getCarts p).2.hasItem .membership = true →
      (getCarts p).1.hasItem .membership = false) ∧
    ((getCarts p).2.hasItem .membership = true →
      discounts .winterOnly ∈ (getCarts p).2.cartDiscounts) := by
  have e2 : (getCarts p).2 = winterCart p := rfl
  have e1 : (getCarts p).1 = fallCart p := rfl
  constructor
  · intro h
    have hMW := (winterCart_hasItem_membership p).mp (by rw [e2] at h; exact h)
    rw [e1, ← Bool.not_eq_true, fallCart_hasItem_membership]
    exact hMW.1
  · intro h
    have hMW := (winterCart_hasItem_membership p).mp (by rw [e2] at h; exact h)
    rw [e2, winterCart_cartDiscounts]
    unfold winterDiscountsSpec
    rw [if_pos hMW]
    simp

/-- C5 witness: with nothing selected for fall and one winter regular league,
the winter cart has membership, the fall cart does not, and the winter cart
carries the winter-only discount. -/
theorem winter_membership_invariant_witness :
    (getCarts pC5w).1.hasItem .membership = false ∧
    discounts .winterOnly ∈ (getCarts pC5w).2.cartDiscounts :=
  ⟨(winter_membership_invariant pC5w).1 (by decide),
    (winter_membership_invariant pC5w).2 (by decide)⟩

/-- C6: after any operation sequence, a cart's discounts are exactly the
absolute-strategy discounts in insertion order followed by the
percentage-strategy discounts in insertion order, and re-sorting this
already-sorted sequence leaves it unchanged. -/
theorem discount_sort_invariant (ops : List CartOp) :
    (applyOps Cart.empty ops).cartDiscounts =
      (opDiscounts ops).filter isAbsoluteD ++
        (opDiscounts ops).filter isPercentageD ∧
    sortDiscounts ((applyOps Cart.empty ops).cartDiscounts) =
      (applyOps Cart.empty ops).cartDiscounts := by
  have h := applyOps_cartDiscounts ops Cart.empty rfl
  have h2 : (applyOps Cart.empty ops).cartDiscounts =
      partitionD (opDiscounts ops) := by
    rw [h]
    show partitionD ([] ++ opDiscounts ops) = _
    rw [List.nil_append]
  constructor
  · rw [h2]; rfl
  · rw [h2, sortDiscounts_eq_partitionD, partitionD_idem]

/-- C2: in winter discount assignment, family (resp. student) is added to the
winter cart exactly when it is the selected discount and the winter cart is
non-empty, with no membership precondition; reciprocal is added to the winter
cart exactly when it is selected, the winter cart has membership, the fall
cart lacks membership, and the winter cart has at least one league. -/
theorem winter_discount_assignment (p : GetCostParams) :
    ((discounts .family ∈ (getCarts p).2.cartDiscounts) ↔
      (p.discount = some UserDiscount.family ∧
        (getCarts p).2.cartItems ≠ [])) ∧
    ((discounts .student ∈ (getCarts p).2.cartDiscounts) ↔
      (p.discount = some UserDiscount.student ∧
        (getCarts p).2.cartItems ≠ [])) ∧
    ((discounts .reciprocal ∈ (getCarts p).2.cartDiscounts) ↔
      (p.discount = some UserDiscount.reciprocal ∧
        (getCarts p).2.hasItem .membership = true ∧
        (getCarts p).1.hasItem .membership = false ∧
        0 < (getCarts p).2.getLeagueCount)) := by
  have e2 : (getCarts p).2 = winterCart p := rfl
  have e1 : (getCarts p).1 = fallCart p := rfl
  rw [e1, e2, winterCart_cartDiscounts, winterCart_cartItems,
    winterCart_hasItem_membership, winterCart_getLeagueCount,
    ← Bool.not_eq_true, fallCart_hasItem_membership]
  unfold winterDiscountsSpec
  by_cases hgate : 0 < (winterItemsSpec p).length
  · have hne : winterItemsSpec p ≠ [] := List.length_pos.mp hgate
    rw [if_pos hgate]
    by_cases hMW : ¬ fallMembWanted p ∧ winterMembWanted p
    · rw [if_pos hMW]
      rcases hd : p.discount with _ | u
      · simp [hd, hne, hMW]
      · cases u <;> by_cases hm : 0 < p.winterRegularLeagues <;>
          simp [hd, hne, hMW, hm]
    · rw [if_neg hMW]
      rcases hd : p.discount with _ | u
      · simp [hd, hne, hMW]
      · cases u <;> by_cases hm : 0 < p.winterRegularLeagues <;>
          simp [hd, hne, hMW, hm]
  · have hnil : winterItemsSpec p = [] := by
      cases hx : winterItemsSpec p with
      | nil => rfl
      | cons a l => exact absurd (by simp [hx]) hgate
    rw [if_neg hgate]
    by_cases hMW : ¬ fallMembWanted p ∧ winterMembWanted p
    · exfalso
      unfold winterItemsSpec at hnil
      simp [hMW] at hnil
    · rw [if_neg hMW]
      simp [hnil, hMW]

/-- C2 witness: fall=1 league (fall owns the annual membership), winter=1
league, discount=family: the family discount lands in the winter cart even
though the winter cart has no membership item. -/
theorem winter_discount_assignment_witness :
    discounts .family ∈ (getCarts pC2w).2.cartDiscounts ∧
    (getCarts pC2w).2.hasItem .membership = false :=
  ⟨(winter_discount_assignment pC2w).1.mpr ⟨rfl, by decide⟩, by decide⟩

/-- C3: for every cart built by any sequence of addItem/addDiscount calls,
total() is the raw item sum minus the absolute-discount amounts, times the
product of (1 - pct/100) over percentage discounts, and the total does not
depend on the order in which the discounts were added. -/
theorem cart_total_formula (ops : List CartOp) :
    ((applyOps Cart.empty ops).getTotal =
      (((opItems ops).map Sku.cost).sum - sumAbsolute (opDiscounts ops)) *
        prodPercent (opDiscounts ops)) ∧
    (∀ ops₂ : List CartOp, opItems ops = opItems ops₂ →
      (opDiscounts ops).Perm (opDiscounts ops₂) →
      (applyOps Cart.empty ops).getTotal =
        (applyOps Cart.empty ops₂).getTotal) := by
  have key : ∀ l : List CartOp, (applyOps Cart.empty l).getTotal =
      (((opItems l).map Sku.cost).sum - sumAbsolute (opDiscounts l)) *
        prodPercent (opDiscounts l) := by
    intro l
    rw [applyOps_empty_eq]
    exact getTotal_partitioned _ _
  refine ⟨key ops, ?_⟩
  intro ops₂ hi hd
  rw [key ops, key ops₂, hi, sumAbsolute_perm hd, prodPercent_perm hd]

/-- C3 witness: adding family then reciprocal gives the same total as adding
reciprocal then family around the same item. -/
theorem cart_total_formula_witness :
    (applyOps Cart.empty wC3a).getTotal =
      (applyOps Cart.empty wC3b).getTotal :=
  (cart_total_formula wC3a).2 wC3b rfl (List.Perm.swap _ _ _)

/-- C7: fall discounts require a non-empty fall cart containing membership;
under that gate reciprocal is added exactly when selected with at least one
fall league, and family/student exactly when selected, independently of the
reciprocal check. -/
theorem fall_discount_gating (p : GetCostParams) :
    ((getCarts p).1.cartDiscounts ≠ [] →
      (0 < (getCarts p).1.cartItems.length ∧
        (getCarts p).1.hasItem .membership = true)) ∧
    ((discounts .reciprocal ∈ (getCarts p).1.cartDiscounts) ↔
      ((0 < (getCarts p).1.cartItems.length ∧
        (getCarts p).1.hasItem .membership = true) ∧
        p.discount = some UserDiscount.reciprocal ∧
        0 < (getCarts p).1.getLeagueCount)) ∧
    ((discounts .family ∈ (getCarts p).1.cartDiscounts) ↔
      ((0 < (getCarts p).1.cartItems.length ∧
        (getCarts p).1.hasItem .membership = true) ∧
        p.discount = some UserDiscount.family)) ∧
    ((discounts .student ∈ (getCarts p).1.cartDiscounts) ↔
      ((0 < (getCarts p).1.cartItems.length ∧
        (getCarts p).1.hasItem .membership = true) ∧
        p.discount = some UserDiscount.student)) := by
  have e1 : (getCarts p).1 = fallCart p := rfl
  rw [e1, fallCart_cartDiscounts, fallCart_getLeagueCount, fallGateFinal_iff]
  unfold fallDiscountsSpec
  by_cases hFm : fallMembWanted p
  · rw [if_pos hFm]
    rcases hd : p.discount with _ | u
    · simp [hd, hFm]
    · cases u <;> by_cases hk : 0 < p.fallRegularLeagues <;>
        simp [hd, hFm, hk]
  · rw [if_neg hFm]
    simp [hFm]

/-- C7 witness: fall=1 league with discount=reciprocal satisfies the gate and
puts the reciprocal discount in the fall cart. -/
theorem fall_discount_gating_witness :
    (0 < (getCarts pC7w).1.cartItems.length ∧
      (getCarts pC7w).1.hasItem .membership = true) ∧
    discounts .reciprocal ∈ (getCarts pC7w).1.cartDiscounts :=
  ⟨(fall_discount_gating pC7w).1 (by decide),
    (fall_discount_gating pC7w).2.1.mpr ⟨⟨by decide, by decide⟩, rfl,
      by decide⟩⟩

/-- C8: the dues entitlement appears in the annual list iff some cart has
membership and neither cart carries a discount named like the reciprocal
discount. -/
theorem dues_entitlement (fc wc : Cart) :
    (Benefit.dues ∈ (getBenefits fc wc).annual) ↔
      ((fc.hasItem .membership = true ∨ wc.hasItem .membership = true) ∧
        (∀ d ∈ fc.cartDiscounts,
          d.name ≠ (discounts DiscountType.reciprocal).name) ∧
        (∀ d ∈ wc.cartDiscounts,
          d.name ≠ (discounts DiscountType.reciprocal).name)) := by
  simp only [getBenefits, Cart.getDiscounts, discounts]
  simp [List.mem_append, List.any_eq_true, beq_iff_eq]

/-- C8 witness: a fall cart with only the membership item and an empty winter
cart get the dues entitlement. -/
theorem dues_entitlement_witness :
    Benefit.dues ∈ (getBenefits
      { cartItems := [items .membership], cartDiscounts := [] }
      Cart.empty).annual :=
  (dues_entitlement _ _).mpr ⟨Or.inl (by decide), by simp,
    by simp [Cart.empty]⟩

/-- C9: when winter requests zero regular leagues and wants day-leagues or
spare-only, the winter cart gets the reduced basic-ice item exactly when the
fall cart's league count is at least 3, and the full-price basic-ice item
exactly when it is below 3. -/
theorem winter_ice_pricing (p : GetCostParams)
    (h0 : p.winterRegularLeagues = 0)
    (hds : p.winterDayLeagues = true ∨ p.winterSpareOnly = true) :
    ((items .basicIceReduced ∈ (getCarts p).2.cartItems) ↔
      3 ≤ (getCarts p).1.getLeagueCount) ∧
    ((items .basicIce ∈ (getCarts p).2.cartItems) ↔
      (getCarts p).1.getLeagueCount < 3) := by
  have e2 : (getCarts p).2 = winterCart p := rfl
  have e1 : (getCarts p).1 = fallCart p := rfl
  rw [e1, e2, winterCart_cartItems, fallCart_getLeagueCount]
  unfold winterItemsSpec winterIceSocialSpec
  by_cases h3 : 3 ≤ p.fallRegularLeagues
  · by_cases hMW : ¬ fallMembWanted p ∧ winterMembWanted p <;>
      simp [h0, hds, h3, hMW, Nat.not_lt.mpr h3]
  · by_cases hMW : ¬ fallMembWanted p ∧ winterMembWanted p <;>
      simp [h0, hds, h3, hMW, Nat.not_le.mp h3]

/-- C9 witness: fall day-leagues only (fall league count 0) with a winter
day-league request yields full-price basic ice, not the reduced item. -/
theorem winter_ice_pricing_witness :
    items .basicIce ∈ (getCarts pC9w).2.cartItems ∧
    ¬ (items .basicIceReduced ∈ (getCarts pC9w).2.cartItems) :=
  ⟨(winter_ice_pricing pC9w rfl (Or.inl rfl)).2.mpr (by decide),
    fun h => absurd ((winter_ice_pricing pC9w rfl (Or.inl rfl)).1.mp h)
      (by decide)⟩

/-- C10: the basic-ice and basic-ice-reduced catalog entries share one name,
so hasItem cannot tell them apart in any cart; consequently a winter cart
holding only the reduced-price ice item is ice-eligible for the benefit
resolver and receives the full seasonal entitlement list. -/
theorem basic_ice_name_collision :
    (∀ c : Cart, c.hasItem .basicIce = c.hasItem .basicIceReduced) ∧
    (getBenefits { cartItems := [], cartDiscounts := [] }
        { cartItems := [items .basicIceReduced],
          cartDiscounts := [] }).winter =
      [Benefit.buildingAccess, Benefit.ice, Benefit.daytime, Benefit.sparing,
        Benefit.rentals, Benefit.training] := by
  constructor
  · intro c; rfl
  · rfl

end Dues
